import Mathlib

/-!
Shallow embedding of `src/modules/core/src/loaders/xviz-loader-interface.js`
(the XVIZLoaderInterface class of streetscape.gl): a versioned key/value
attribute store with change detection and a coalescing notification tick,
event callbacks, and memoized derived reads (seek clamping, log bounds,
stream filtering, current-frame retrieval).

JavaScript values are modelled by the inductive `JSVal`: finite numbers as
exact rationals, the non-finite numbers NaN and plus and minus Infinity as
their own constructors, and objects as an allocation identity `oid` paired
with an association list of own enumerable fields. Strict equality `===`
compares objects by identity only, and `NaN === NaN` is false, exactly as
in JavaScript.
-/

set_option autoImplicit false

namespace XVIZ

/-- JavaScript runtime values, as used by the loader: `undefined`, `null`,
booleans, finite numbers (as exact rationals), `NaN`, plus and minus
`Infinity`, strings, and objects (allocation id plus own fields). -/
inductive JSVal where
  | undefined
  | null
  | bool (b : Bool)
  | num (q : ℚ)
  | nan
  | posInf
  | negInf
  | str (s : String)
  | obj (oid : Nat) (fields : List (String × JSVal))

mutual

/-- Decidable equality on `JSVal` (structural; it only serves to let
concrete instances of the theorems below be checked by `decide`). -/
def jsvalDecEq : (a b : JSVal) → Decidable (a = b)
  | .undefined, .undefined => isTrue rfl
  | .null, .null => isTrue rfl
  | .bool a, .bool b =>
    if h : a = b then isTrue (by rw [h]) else isFalse (by simp [h])
  | .num a, .num b =>
    if h : a = b then isTrue (by rw [h]) else isFalse (by simp [h])
  | .nan, .nan => isTrue rfl
  | .posInf, .posInf => isTrue rfl
  | .negInf, .negInf => isTrue rfl
  | .str a, .str b =>
    if h : a = b then isTrue (by rw [h]) else isFalse (by simp [h])
  | .obj a fs, .obj b gs =>
    match Nat.decEq a b, jsfieldsDecEq fs gs with
    | isTrue h1, isTrue h2 => isTrue (by rw [h1, h2])
    | isFalse h1, _ => isFalse (by simp [h1])
    | _, isFalse h2 => isFalse (by simp [h2])
  | .undefined, .null | .undefined, .bool _ | .undefined, .num _ | .undefined, .nan
  | .undefined, .posInf | .undefined, .negInf | .undefined, .str _ | .undefined, .obj _ _
  | .null, .undefined | .null, .bool _ | .null, .num _ | .null, .nan
  | .null, .posInf | .null, .negInf | .null, .str _ | .null, .obj _ _
  | .bool _, .undefined | .bool _, .null | .bool _, .num _ | .bool _, .nan
  | .bool _, .posInf | .bool _, .negInf | .bool _, .str _ | .bool _, .obj _ _
  | .num _, .undefined | .num _, .null | .num _, .bool _ | .num _, .nan
  | .num _, .posInf | .num _, .negInf | .num _, .str _ | .num _, .obj _ _
  | .nan, .undefined | .nan, .null | .nan, .bool _ | .nan, .num _
  | .nan, .posInf | .nan, .negInf | .nan, .str _ | .nan, .obj _ _
  | .posInf, .undefined | .posInf, .null | .posInf, .bool _ | .posInf, .num _
  | .posInf, .nan | .posInf, .negInf | .posInf, .str _ | .posInf, .obj _ _
  | .negInf, .undefined | .negInf, .null | .negInf, .bool _ | .negInf, .num _
  | .negInf, .nan | .negInf, .posInf | .negInf, .str _ | .negInf, .obj _ _
  | .str _, .undefined | .str _, .null | .str _, .bool _ | .str _, .num _
  | .str _, .nan | .str _, .posInf | .str _, .negInf | .str _, .obj _ _
  | .obj _ _, .undefined | .obj _ _, .null | .obj _ _, .bool _ | .obj _ _, .num _
  | .obj _ _, .nan | .obj _ _, .posInf | .obj _ _, .negInf | .obj _ _, .str _ =>
    isFalse (by intro h; exact JSVal.noConfusion h)

/-- Decidable equality on field lists, mutually with `jsvalDecEq`. -/
def jsfieldsDecEq : (a b : List (String × JSVal)) → Decidable (a = b)
  | [], [] => isTrue rfl
  | [], _ :: _ => isFalse (by intro h; exact List.noConfusion h)
  | _ :: _, [] => isFalse (by intro h; exact List.noConfusion h)
  | (k, v) :: r, (k2, v2) :: r2 =>
    match String.decEq k k2, jsvalDecEq v v2, jsfieldsDecEq r r2 with
    | isTrue h1, isTrue h2, isTrue h3 => isTrue (by rw [h1, h2, h3])
    | isFalse h1, _, _ => isFalse (by simp [h1])
    | _, isFalse h2, _ => isFalse (by simp [h2])
    | _, _, isFalse h3 => isFalse (by simp [h3])

end

instance : DecidableEq JSVal := jsvalDecEq

/-- JavaScript strict equality `===`: primitives by value (`NaN === NaN` is
false), objects by reference identity (`oid`). -/
def strictEq : JSVal → JSVal → Bool
  | .undefined, .undefined => true
  | .null, .null => true
  | .bool a, .bool b => a == b
  | .num a, .num b => a == b
  | .posInf, .posInf => true
  | .negInf, .negInf => true
  | .str a, .str b => a == b
  | .obj a _, .obj b _ => a == b
  | _, _ => false

/-- JavaScript truthiness: `undefined`, `null`, `false`, `0`, `NaN` and the
empty string are falsy; every object and every other primitive is truthy. -/
def truthy : JSVal → Bool
  | .undefined => false
  | .null => false
  | .bool b => b
  | .num q => q != 0
  | .nan => false
  | .posInf => true
  | .negInf => true
  | .str s => s != ""
  | .obj _ _ => true

/-- `Number.isFinite(v)`: true exactly on finite numbers. -/
def isFiniteNum : JSVal → Bool
  | .num _ => true
  | _ => false

/-- First-match lookup in an association list of object fields. -/
def lookupField : List (String × JSVal) → String → Option JSVal
  | [], _ => none
  | (k, v) :: rest, key => if k = key then some v else lookupField rest key

/-- JavaScript property read on a plain-object store: an absent key reads as
`undefined` (spec section 4.2: "absent keys simply read as undefined"). -/
def getAttr (fields : List (String × JSVal)) (key : String) : JSVal :=
  (lookupField fields key).getD .undefined

/-- Write `this.state[key] = value`: replace the first binding of `key`, or
append a new binding. -/
def setAttr : List (String × JSVal) → String → JSVal → List (String × JSVal)
  | [], key, v => [(key, v)]
  | (k, w) :: rest, key, v =>
    if k = key then (key, v) :: rest else (k, w) :: setAttr rest key v

/-- Property read `o.key` on a value: field lookup on objects, `undefined`
otherwise (the loader only dereferences values it has checked truthy). -/
def jsField : JSVal → String → JSVal
  | .obj _ fields, key => getAttr fields key
  | _, _ => .undefined

/-- JavaScript `a && b`: returns `a` when `a` is falsy, else `b`. -/
def jsAnd (a b : JSVal) : JSVal :=
  if truthy a then b else a

/-- JavaScript `+` on the operands the loader actually adds: numbers
(including the non-finite ones). The loader adds only `metadata.start_time`
and the configured `TIME_WINDOW`, both numbers (spec section 6); string
coercion therefore never arises and non-numeric operands map to `NaN`. -/
def jsAdd : JSVal → JSVal → JSVal
  | .num a, .num b => .num (a + b)
  | .num _, .posInf => .posInf
  | .posInf, .num _ => .posInf
  | .posInf, .posInf => .posInf
  | .num _, .negInf => .negInf
  | .negInf, .num _ => .negInf
  | .negInf, .negInf => .negInf
  | _, _ => .nan

/-- The mutable state of one `XVIZLoaderInterface` instance:
`state` is the attribute bag `this.state`, `version` is `this._version`,
`updateTimer` is `this._updateTimer` (`none` models `null`, `some h` a
`requestAnimationFrame` handle), `listeners` is `this.listeners` (opaque
subscriber identities), `nextId` is the allocator for fresh object
identities, and `nextTimer` the allocator for animation-frame handles
(browser handles are positive and increase, so the model hands out
`nextTimer + 1` and bumps the counter). -/
structure LoaderState where
  state : List (String × JSVal)
  version : Nat
  updateTimer : Option Nat
  listeners : List Nat
  nextId : Nat
  nextTimer : Nat
deriving DecidableEq

/-- Truthiness of `this._updateTimer` in `if (!this._updateTimer)`:
`null` is falsy, a handle is truthy iff nonzero (browser handles are
always nonzero). -/
def timerPending : Option Nat → Bool
  | none => false
  | some h => h != 0

/-- `get(key)`: read of `this.state[key]`. -/
def get (s : LoaderState) (key : String) : JSVal :=
  getAttr s.state key

/-- `set(key, value)`: writes only when `this.state[key] !== value`; on an
actual change increments `_version` and, when no update timer is pending,
arms one via `requestAnimationFrame(this._update)` (modelled as taking the
fresh handle `nextTimer + 1`). -/
def set (key : String) (value : JSVal) (s : LoaderState) : LoaderState :=
  if strictEq (getAttr s.state key) value then s
  else
    let s1 : LoaderState :=
      { s with state := setAttr s.state key value, version := s.version + 1 }
    if timerPending s1.updateTimer then s1
    else { s1 with updateTimer := some (s1.nextTimer + 1), nextTimer := s1.nextTimer + 1 }

/-- `this._update`: the flush callback. It first clears `this._updateTimer`
to `null`, then invokes every listener in `this.listeners` with
`this._version`. The returned list records the deliveries: one
`(listener, version)` pair per registered listener, in order. -/
def _update (s : LoaderState) : LoaderState × List (Nat × Nat) :=
  let s1 : LoaderState := { s with updateTimer := none }
  (s1, s1.listeners.map (fun l => (l, s1.version)))

/-- Run a synchronous burst of `set(key, value)` calls, in order. -/
def runSets : List (String × JSVal) → LoaderState → LoaderState
  | [], s => s
  | (k, v) :: rest, s => runSets rest (set k v s)

/-- At least one call of the burst is an effective write: its value differs
(by `===`) from the value stored at the moment the call runs. -/
def anyEffective : List (String × JSVal) → LoaderState → Bool
  | [], _ => false
  | (k, v) :: rest, s =>
    !strictEq (getAttr s.state k) v || anyEffective rest (set k v s)

/-- Every call of the burst passes a value strictly equal (`===`) to the
value stored under its key at the moment the call runs. -/
def allUnchanged : List (String × JSVal) → LoaderState → Bool
  | [], _ => true
  | (k, v) :: rest, s =>
    strictEq (getAttr s.state k) v && allUnchanged rest (set k v s)

/-- The derivation of the memoized selector `getLogStartTime`:
`metadata && metadata.start_time && metadata.start_time + getXVIZConfig().TIME_WINDOW`.
`w` is the configured `TIME_WINDOW` (an external config read, a number). -/
def getLogStartTimeOf (w : ℚ) (metadata : JSVal) : JSVal :=
  jsAnd metadata
    (jsAnd (jsField metadata "start_time")
      (jsAdd (jsField metadata "start_time") (.num w)))

/-- The derivation of the memoized selector `getLogEndTime`:
`metadata && metadata.end_time`. -/
def getLogEndTimeOf (metadata : JSVal) : JSVal :=
  jsAnd metadata (jsField metadata "end_time")

/-- The external `clamp(value, min, max)` utility from math.gl, specified as
a pure numeric min/max bound (spec section 1): `value < min ? min :
(value > max ? max : value)` under JavaScript numeric comparison. A value
whose numeric coercion is `NaN` (`undefined`, `NaN`, plain objects,
non-numeric strings) fails both comparisons and passes through; `null` and
booleans coerce to 0 and 0/1; numeric-string coercion is not modelled
(the loader only clamps timestamps, which are numbers). -/
def clampJS (v : JSVal) (lo hi : ℚ) : JSVal :=
  match v with
  | .posInf => .num hi
  | .negInf => .num lo
  | .num t => if t < lo then .num lo else if t > hi then .num hi else .num t
  | .null => if (0 : ℚ) < lo then .num lo else if (0 : ℚ) > hi then .num hi else .null
  | .bool b =>
    if (if b then (1 : ℚ) else 0) < lo then .num lo
    else if (if b then (1 : ℚ) else 0) > hi then .num hi
    else .bool b
  | v => v

/-- `seek(timestamp)`: reads `getMetadata()`; when metadata is truthy and
both `getLogStartTime()` and `getLogEndTime()` are finite numbers, clamps
the timestamp into that range; then `set('timestamp', ...)` with the
(possibly clamped) value. The two bound selectors are modelled by their
derivations applied to the current metadata (spec section 4.3: the cached
output equals the derivation of the last-seen input, and the input here is
exactly the current metadata value). -/
def seek (w : ℚ) (timestamp : JSVal) (s : LoaderState) : LoaderState :=
  let metadata := getAttr s.state "metadata"
  let ts :=
    if truthy metadata then
      match getLogStartTimeOf w metadata, getLogEndTimeOf metadata with
      | .num lo, .num hi => clampJS timestamp lo hi
      | _, _ => timestamp
    else timestamp
  set "timestamp" ts s

/-- Own enumerable fields contributed by a value under object spread:
objects contribute their fields; `undefined`, `null`, booleans and numbers
contribute none. (String index-spreading is not modelled: the loader only
spreads settings objects or `undefined`.) -/
def fieldsOf : JSVal → List (String × JSVal)
  | .obj _ fields => fields
  | _ => []

/-- Field list of the JavaScript spread `\x7b...old, ...new\x7d`: for every
key, the result maps it to the `new` binding when present, else to the
`old` one. (Key insertion order of overwritten keys is not tracked; the
mapping is.) -/
def mergeFields (old new : List (String × JSVal)) : List (String × JSVal) :=
  old.filter (fun p => (lookupField new p.1).isNone) ++ new

/-- `updateStreamSettings(settings)`: reads `get('streamSettings')` and
stores a freshly allocated object holding the spread
`\x7b...streamSettings, ...settings\x7d` via `set`. The fresh object takes the
next allocation identity `nextId`. -/
def updateStreamSettings (settings : JSVal) (s : LoaderState) : LoaderState :=
  let streamSettings := getAttr s.state "streamSettings"
  let merged : JSVal :=
    .obj s.nextId (mergeFields (fieldsOf streamSettings) (fieldsOf settings))
  set "streamSettings" merged { s with nextId := s.nextId + 1 }

/-- The derivation of the memoized selector `getStreams`: when either
`streamSettings` or `streams` is falsy, returns `streams` unchanged;
otherwise builds a fresh object keeping exactly the entries of `streams`
whose setting under the same name is truthy. `freshOid` is the identity of
the freshly built result object. -/
def getStreamsCompute (freshOid : Nat) (streamSettings streams : JSVal) : JSVal :=
  if !truthy streamSettings || !truthy streams then streams
  else
    .obj freshOid
      ((fieldsOf streams).filter (fun p => truthy (getAttr (fieldsOf streamSettings) p.1)))

/-- The retained state of the external log synchronizer: the last time and
look-ahead offset pushed into it (spec section 4.4: the synchronizer
retains the last-set time and look-ahead across calls). -/
structure SyncState where
  time : JSVal
  lookAheadTimeOffset : JSVal
deriving DecidableEq

/-- One observable call into the external log synchronizer. -/
inductive SyncCall where
  | setTime (t : JSVal)
  | setLookAheadTimeOffset (l : JSVal)
  | getCurrentFrame (settings : JSVal)
deriving DecidableEq

/-- `logSynchronizer.setTime(timestamp)`. -/
def syncSetTime (t : JSVal) (st : SyncState) : SyncState :=
  { st with time := t }

/-- `logSynchronizer.setLookAheadTimeOffset(offset)`. -/
def syncSetLookAhead (l : JSVal) (st : SyncState) : SyncState :=
  { st with lookAheadTimeOffset := l }

/-- `logSynchronizer.getCurrentFrame(streamSettings)`: the frame is some
function `resp` of the synchronizer's retained time and look-ahead and the
settings argument (the frame-assembly logic itself is out of scope,
spec section 1). -/
def syncGetCurrentFrame (resp : JSVal → JSVal → JSVal → JSVal)
    (settings : JSVal) (st : SyncState) : JSVal :=
  resp st.time st.lookAheadTimeOffset settings

/-- The derivation of the memoized selector `getCurrentFrame`: when the
`logSynchronizer` attribute holds a synchronizer (`present`, the truthy
case; absent reads as `undefined`, falsy) and the timestamp is a finite
number, it calls `setTime`, then `setLookAheadTimeOffset`, then returns
`getCurrentFrame(streamSettings)`; otherwise it returns `null`.
The result records the returned value, the synchronizer state after the
call, and the trace of synchronizer calls in order. -/
def getCurrentFrameCompute (resp : JSVal → JSVal → JSVal → JSVal)
    (present : Bool) (st0 : SyncState)
    (streamSettings timestamp lookAhead : JSVal) :
    JSVal × SyncState × List SyncCall :=
  if present && isFiniteNum timestamp then
    let st1 := syncSetTime timestamp st0
    let st2 := syncSetLookAhead lookAhead st1
    (syncGetCurrentFrame resp streamSettings st2, st2,
      [SyncCall.setTime timestamp, SyncCall.setLookAheadTimeOffset lookAhead,
        SyncCall.getCurrentFrame streamSettings])
  else (JSVal.null, st0, [])

/-- `isOpen()` on the base class: returns `false` (it does not throw). -/
def isOpen : Except String JSVal :=
  .ok (.bool false)

/-- `connect()` on the base class: `throw new Error('not implemented')`. -/
def connect : Except String JSVal :=
  .error "not implemented"

/-- `close()` on the base class: `throw new Error('not implemented')`. -/
def close : Except String JSVal :=
  .error "not implemented"

/-- `getBufferRange()` on the base class: `throw new Error('not implemented')`. -/
def getBufferRange : Except String JSVal :=
  .error "not implemented"

/-- The result a base-class connection method would have if it threw the
"not implemented" programming error. -/
def throwsNotImplemented (r : Except String JSVal) : Prop :=
  r = .error "not implemented"

/-- An event callback registered on the loader, for the purpose of the
`emit` loop: an opaque identity and whether invoking it throws. -/
structure Callback where
  cid : Nat
  throws : Bool

/-- The loop of `emit(eventType, eventArgs)` over
`this.callbacks[eventType]`: `for (const cb of callbacks) cb(...)`, with no
guard around the body. Returns the identities of the callbacks actually
invoked, in order, and the identity of the throwing callback whose
exception aborted the loop, if any (the exception propagates to the
caller; the trailing diagnostic `stats.bump` is then also skipped). -/
def emitRun : List Callback → List Nat × Option Nat
  | [] => ([], none)
  | cb :: rest =>
    if cb.throws then ([cb.cid], some cb.cid)
    else
      let r := emitRun rest
      (cb.cid :: r.1, r.2)

/-- The stored `streamSettings` attribute does not already carry the object
identity the next allocation would take (true of every reachable state:
identities are allocated fresh). Used to discharge the `!==` check of `set`
for the freshly built merge object. -/
def notNextId (s : LoaderState) : Bool :=
  match getAttr s.state "streamSettings" with
  | .obj o _ => o != s.nextId
  | _ => true

/- -------------------- helper lemmas -------------------- -/

theorem lookupField_setAttr_self (st : List (String × JSVal)) (k : String) (v : JSVal) :
    lookupField (setAttr st k v) k = some v := by
  induction st with
  | nil => simp [setAttr, lookupField]
  | cons hd tl ih =>
    obtain ⟨k0, v0⟩ := hd
    by_cases h : k0 = k
    · simp [setAttr, h, lookupField]
    · simp [setAttr, h, lookupField, ih]

theorem getAttr_setAttr_self (st : List (String × JSVal)) (k : String) (v : JSVal) :
    getAttr (setAttr st k v) k = v := by
  simp [getAttr, lookupField_setAttr_self]

theorem strictEq_num_right (x : JSVal) (t : ℚ) (h : strictEq x (.num t) = true) :
    x = .num t := by
  cases x <;> simp [strictEq] at h ⊢
  exact h

theorem set_noop (k : String) (v : JSVal) (s : LoaderState)
    (h : strictEq (getAttr s.state k) v = true) : set k v s = s := by
  simp [set, h]

theorem get_set_num (k : String) (t : ℚ) (s : LoaderState) :
    get (set k (.num t) s) k = .num t := by
  unfold set
  by_cases h : strictEq (getAttr s.state k) (.num t) = true
  · have hx := strictEq_num_right _ _ h
    simp [hx, get, strictEq]
  · simp only [Bool.not_eq_true] at h
    simp only [h]
    by_cases hp : timerPending s.updateTimer = true
    · simp [hp, get, getAttr_setAttr_self]
    · simp only [Bool.not_eq_true] at hp
      simp [hp, get, getAttr_setAttr_self]

theorem set_listeners (k : String) (v : JSVal) (s : LoaderState) :
    (set k v s).listeners = s.listeners := by
  unfold set
  by_cases h : strictEq (getAttr s.state k) v = true
  · simp [h]
  · simp only [Bool.not_eq_true] at h
    by_cases hp : timerPending s.updateTimer = true <;> simp_all

theorem set_pending_frozen (k : String) (v : JSVal) (s : LoaderState)
    (h : timerPending s.updateTimer = true) :
    (set k v s).updateTimer = s.updateTimer ∧ (set k v s).nextTimer = s.nextTimer := by
  unfold set
  by_cases he : strictEq (getAttr s.state k) v = true
  · simp [he]
  · simp only [Bool.not_eq_true] at he
    simp [he, h]

theorem runSets_pending_frozen (ops : List (String × JSVal)) (s : LoaderState)
    (h : timerPending s.updateTimer = true) :
    (runSets ops s).updateTimer = s.updateTimer ∧
    (runSets ops s).nextTimer = s.nextTimer ∧
    (runSets ops s).listeners = s.listeners := by
  induction ops generalizing s with
  | nil => simp [runSets]
  | cons hd tl ih =>
    obtain ⟨k, v⟩ := hd
    have hf := set_pending_frozen k v s h
    have hl := set_listeners k v s
    have hp2 : timerPending (set k v s).updateTimer = true := by rw [hf.1]; exact h
    have := ih (set k v s) hp2
    simp only [runSets]
    exact ⟨this.1.trans hf.1, this.2.1.trans hf.2, this.2.2.trans hl⟩

theorem set_arms (k : String) (v : JSVal) (s : LoaderState)
    (hnone : s.updateTimer = none)
    (heff : strictEq (getAttr s.state k) v = false) :
    (set k v s).updateTimer = some (s.nextTimer + 1) ∧
    (set k v s).nextTimer = s.nextTimer + 1 := by
  simp [set, heff, hnone, timerPending]

theorem runSets_arms_once (ops : List (String × JSVal)) (s : LoaderState)
    (hnone : s.updateTimer = none)
    (heff : anyEffective ops s = true) :
    (runSets ops s).updateTimer = some (s.nextTimer + 1) ∧
    (runSets ops s).nextTimer = s.nextTimer + 1 ∧
    (runSets ops s).listeners = s.listeners := by
  induction ops generalizing s with
  | nil => simp [anyEffective] at heff
  | cons hd tl ih =>
    obtain ⟨k, v⟩ := hd
    by_cases he : strictEq (getAttr s.state k) v = true
    · have hs : set k v s = s := set_noop k v s he
      have heff2 : anyEffective tl s = true := by
        simp [anyEffective, he, hs] at heff
        simpa [hs] using heff
      have := ih s hnone heff2
      simpa [runSets, hs] using this
    · simp only [Bool.not_eq_true] at he
      have harm := set_arms k v s hnone he
      have hp : timerPending (set k v s).updateTimer = true := by
        rw [harm.1]; simp [timerPending]
      have hfr := runSets_pending_frozen tl (set k v s) hp
      have hl := set_listeners k v s
      simp only [runSets]
      exact ⟨hfr.1.trans harm.1, hfr.2.1.trans harm.2, hfr.2.2.trans hl⟩

/- -------------------- claim theorems -------------------- -/

/-- C3: a sequence of `set` calls whose values are each strictly equal
(`===`) to the value currently stored under their key leaves the entire
loader state unchanged: stored values, the generation counter `_version`,
the pending-tick handle `_updateTimer`, and the allocators are all exactly
as before, and no scheduling tick is armed. -/
theorem unchanged_sets_leave_state_unchanged (ops : List (String × JSVal))
    (s : LoaderState) (h : allUnchanged ops s = true) :
    runSets ops s = s := by
  induction ops generalizing s with
  | nil => rfl
  | cons hd tl ih =>
    obtain ⟨k, v⟩ := hd
    simp only [allUnchanged, Bool.and_eq_true] at h
    have hs : set k v s = s := set_noop k v s h.1
    have := ih s (by simpa [hs] using h.2)
    simpa [runSets, hs] using this

/-- Witness for C3: two writes of the already-stored timestamp value are a
complete no-op on a concrete state. -/
theorem unchanged_sets_leave_state_unchanged_witness :
    allUnchanged [("timestamp", JSVal.num 1), ("timestamp", JSVal.num 1)]
      { state := [("timestamp", JSVal.num 1)], version := 3,
        updateTimer := none, listeners := [10], nextId := 0, nextTimer := 0 } = true ∧
    runSets [("timestamp", JSVal.num 1), ("timestamp", JSVal.num 1)]
      { state := [("timestamp", JSVal.num 1)], version := 3,
        updateTimer := none, listeners := [10], nextId := 0, nextTimer := 0 }
    = { state := [("timestamp", JSVal.num 1)], version := 3,
        updateTimer := none, listeners := [10], nextId := 0, nextTimer := 0 } :=
  ⟨by decide, unchanged_sets_leave_state_unchanged _ _ (by decide)⟩

/-- C6 counterexample: the claim says `isOpen` on the base loader throws the
"not implemented" programming error, but the base `isOpen()` returns
`false` and throws nothing. -/
theorem isOpen_returns_false_counterexample :
    isOpen = Except.ok (JSVal.bool false) ∧ ¬ throwsNotImplemented isOpen := by
  constructor
  · rfl
  · intro h
    simp [throwsNotImplemented, isOpen] at h

/-- C6 amended: of the base connection API, `connect` and `close` (and
`getBufferRange`) throw the fatal "not implemented" error immediately to
the caller, while `isOpen` instead returns `false` without throwing; none
of them touches any other state (they are state-free constants). -/
theorem connection_api_not_implemented :
    throwsNotImplemented connect ∧ throwsNotImplemented close ∧
    throwsNotImplemented getBufferRange ∧ isOpen = Except.ok (JSVal.bool false) :=
  ⟨rfl, rfl, rfl, rfl⟩

/-- C7 counterexample: with two callbacks registered for one event type,
the first of which throws, `emit` invokes only the first: callback `1` is
registered but never invoked in that emit call, refuting the claim that a
throwing callback does not prevent the remaining callbacks from running. -/
theorem emit_throw_stops_remaining_counterexample :
    emitRun [⟨0, true⟩, ⟨1, false⟩] = ([0], some 0) ∧
    1 ∉ (emitRun [⟨0, true⟩, ⟨1, false⟩]).1 := by
  constructor
  · rfl
  · decide

/-- C7 amended: `emit` invokes the registered callbacks in order only up to
and including the first throwing one; its exception propagates immediately
(the `for` loop has no guard), so every callback registered after it is
not invoked in that emit call. -/
theorem emit_aborts_at_first_throwing_callback (pre post : List Callback)
    (c : Callback) (hpre : ∀ x ∈ pre, x.throws = false) (hc : c.throws = true) :
    emitRun (pre ++ c :: post) = (pre.map Callback.cid ++ [c.cid], some c.cid) := by
  induction pre with
  | nil => simp [emitRun, hc]
  | cons hd tl ih =>
    have hhd : hd.throws = false := hpre hd (by simp)
    have htl : ∀ x ∈ tl, x.throws = false := fun x hx => hpre x (by simp [hx])
    simp [emitRun, hhd, ih htl]

/-- Witness for C7's amended theorem: one non-throwing callback, then a
throwing one, then one more — only the first two run, the exception is the
thrower's. -/
theorem emit_aborts_at_first_throwing_callback_witness :
    emitRun [⟨5, false⟩, ⟨6, true⟩, ⟨7, false⟩] = ([5, 6], some 6) :=
  emit_aborts_at_first_throwing_callback [⟨5, false⟩] [⟨7, false⟩] ⟨6, true⟩
    (by decide) (by decide)

/-- C1: a synchronous burst of `set` calls containing at least one
effective write (a prerequisite the claim phrases as pairwise-distinct
values, so that writes change the stored value), starting with no pending
tick, arms exactly one scheduling tick: the timer allocator advances by
exactly one and the armed handle is the one taken at the first effective
write. When that tick fires, `_update` first clears the pending handle and
then delivers to every subscribed listener exactly once, in order, the
generation current at flush time — the final generation of the burst. An
effective `set` performed on the flushed state (for example by a listener
during the flush) arms a new tick whose handle is distinct from the one
just fired, rather than joining the flush in progress. -/
theorem burst_single_flush_final_generation (ops : List (String × JSVal))
    (s0 : LoaderState) (hnone : s0.updateTimer = none)
    (heff : anyEffective ops s0 = true) :
    (runSets ops s0).updateTimer = some (s0.nextTimer + 1) ∧
    (runSets ops s0).nextTimer = s0.nextTimer + 1 ∧
    (_update (runSets ops s0)).1.updateTimer = none ∧
    (_update (runSets ops s0)).2
      = s0.listeners.map (fun l => (l, (runSets ops s0).version)) ∧
    (∀ k v, strictEq (getAttr (_update (runSets ops s0)).1.state k) v = false →
      (set k v (_update (runSets ops s0)).1).updateTimer = some (s0.nextTimer + 2) ∧
      some (s0.nextTimer + 2) ≠ some (s0.nextTimer + 1)) := by
  obtain ⟨h1, h2, h3⟩ := runSets_arms_once ops s0 hnone heff
  refine ⟨h1, h2, rfl, ?_, ?_⟩
  · simp [_update, h3]
  · intro k v hv
    have hfl : (_update (runSets ops s0)).1.updateTimer = none := rfl
    have hst : (_update (runSets ops s0)).1.state = (runSets ops s0).state := rfl
    have hnt : (_update (runSets ops s0)).1.nextTimer = (runSets ops s0).nextTimer := rfl
    have harm := set_arms k v (_update (runSets ops s0)).1 hfl hv
    constructor
    · rw [harm.1, hnt, h2]
    · simp

/-- Witness for C1: two distinct-value writes from a no-pending state arm
the single handle 1, the flush clears it and delivers generation 2 to both
listeners, and a further effective write after the flush arms the distinct
handle 2. -/
theorem burst_single_flush_final_generation_witness :
    (runSets [("timestamp", JSVal.num 1), ("lookAhead", JSVal.num 2)]
      { state := [], version := 0, updateTimer := none, listeners := [10, 20],
        nextId := 0, nextTimer := 0 }).updateTimer = some (0 + 1) ∧
    (_update (runSets [("timestamp", JSVal.num 1), ("lookAhead", JSVal.num 2)]
      { state := [], version := 0, updateTimer := none, listeners := [10, 20],
        nextId := 0, nextTimer := 0 })).2
      = [10, 20].map (fun l => (l,
          (runSets [("timestamp", JSVal.num 1), ("lookAhead", JSVal.num 2)]
            { state := [], version := 0, updateTimer := none, listeners := [10, 20],
              nextId := 0, nextTimer := 0 }).version)) ∧
    (set "timestamp" (JSVal.num 9)
      (_update (runSets [("timestamp", JSVal.num 1), ("lookAhead", JSVal.num 2)]
        { state := [], version := 0, updateTimer := none, listeners := [10, 20],
          nextId := 0, nextTimer := 0 })).1).updateTimer = some (0 + 2) := by
  have h := burst_single_flush_final_generation
    [("timestamp", JSVal.num 1), ("lookAhead", JSVal.num 2)]
    { state := [], version := 0, updateTimer := none, listeners := [10, 20],
      nextId := 0, nextTimer := 0 } rfl (by decide)
  exact ⟨h.1, h.2.2.2.1, (h.2.2.2.2 "timestamp" (JSVal.num 9) (by decide)).1⟩

theorem lookupField_append (a b : List (String × JSVal)) (k : String) :
    lookupField (a ++ b) k
      = match lookupField a k with
        | some v => some v
        | none => lookupField b k := by
  induction a with
  | nil => simp [lookupField]
  | cons hd tl ih =>
    obtain ⟨k0, v0⟩ := hd
    by_cases h : k0 = k <;> simp [lookupField, h, ih]

theorem lookupField_filter_keydep (l : List (String × JSVal))
    (q : String → Bool) (k : String) :
    lookupField (l.filter (fun p => q p.1)) k
      = if q k then lookupField l k else none := by
  induction l with
  | nil => simp [lookupField]
  | cons hd tl ih =>
    obtain ⟨k0, v0⟩ := hd
    by_cases hk : k0 = k
    · subst hk
      by_cases hq : q k0 <;> simp [List.filter, hq, lookupField, ih]
    · by_cases hq : q k0 <;> simp [List.filter, hq, lookupField, hk, ih]

theorem lookupField_mergeFields (old new : List (String × JSVal)) (k : String) :
    lookupField (mergeFields old new) k
      = match lookupField new k with
        | some v => some v
        | none => lookupField old k := by
  unfold mergeFields
  rw [lookupField_append]
  rw [lookupField_filter_keydep old (fun key => (lookupField new key).isNone) k]
  cases h : lookupField new k
  · simp only [h, Option.isNone_none, if_true]
    cases lookupField old k <;> rfl
  · simp [h]

theorem get_set_of_ne (k : String) (v : JSVal) (s : LoaderState)
    (h : strictEq (getAttr s.state k) v = false) :
    get (set k v s) k = v := by
  unfold set
  simp only [h, Bool.false_eq_true, if_false]
  by_cases hp : timerPending s.updateTimer = true <;>
    simp [hp, get, getAttr_setAttr_self]

theorem strictEq_stored_merged_false (s : LoaderState)
    (L : List (String × JSVal)) (h : notNextId s = true) :
    strictEq (getAttr s.state "streamSettings") (JSVal.obj s.nextId L) = false := by
  unfold notNextId at h
  cases hv : getAttr s.state "streamSettings" <;> simp [strictEq]
  rw [hv] at h
  simpa using h

/-- C8: `updateStreamSettings(settings)` shallow-merges `settings` into the
stored `streamSettings` mapping: afterwards every key of `settings` maps to
its new value and every other key maps to its value in the prior mapping.
(`notNextId` states that the stored object does not already carry the
allocation identity the fresh merge object takes — true of every reachable
state, since identities are allocated fresh.) -/
theorem updateStreamSettings_shallow_merge (settings : JSVal) (s : LoaderState)
    (hfresh : notNextId s = true) (k : String) :
    lookupField (fieldsOf (get (updateStreamSettings settings s) "streamSettings")) k
      = match lookupField (fieldsOf settings) k with
        | some v => some v
        | none => lookupField (fieldsOf (getAttr s.state "streamSettings")) k := by
  unfold updateStreamSettings
  have hne : strictEq
      (getAttr ({ s with nextId := s.nextId + 1 } : LoaderState).state "streamSettings")
      (JSVal.obj s.nextId
        (mergeFields (fieldsOf (getAttr s.state "streamSettings")) (fieldsOf settings)))
      = false := strictEq_stored_merged_false s _ hfresh
  rw [get_set_of_ne _ _ _ hne]
  simp only [fieldsOf]
  exact lookupField_mergeFields _ _ k

/-- Witness for C8: on a state whose stored settings came from
`updateStreamSettings` of the single-key object `a = 1`, a second
`updateStreamSettings` with the single-key object `b = 2` yields a mapping
carrying both `a = 1` (preserved) and `b = 2` (added). -/
theorem updateStreamSettings_shallow_merge_witness :
    lookupField (fieldsOf (get (updateStreamSettings (JSVal.obj 101 [("b", JSVal.num 2)])
      (updateStreamSettings (JSVal.obj 100 [("a", JSVal.num 1)])
        { state := [], version := 0, updateTimer := none, listeners := [],
          nextId := 0, nextTimer := 0 })) "streamSettings")) "a" = some (JSVal.num 1) ∧
    lookupField (fieldsOf (get (updateStreamSettings (JSVal.obj 101 [("b", JSVal.num 2)])
      (updateStreamSettings (JSVal.obj 100 [("a", JSVal.num 1)])
        { state := [], version := 0, updateTimer := none, listeners := [],
          nextId := 0, nextTimer := 0 })) "streamSettings")) "b" = some (JSVal.num 2) :=
  ⟨(updateStreamSettings_shallow_merge (JSVal.obj 101 [("b", JSVal.num 2)]) _
      (by decide) "a").trans (by decide),
   (updateStreamSettings_shallow_merge (JSVal.obj 101 [("b", JSVal.num 2)]) _
      (by decide) "b").trans (by decide)⟩

/-- C9: every `updateStreamSettings(settings)` call stores a freshly
allocated object, so the `!==` check of `set` always passes: the
generation counter increments by exactly 1 and, when no tick is pending, a
tick is armed — even when `settings` is empty or restates exactly the
stored values. -/
theorem updateStreamSettings_always_bumps_generation (settings : JSVal)
    (s : LoaderState) (hfresh : notNextId s = true) :
    (updateStreamSettings settings s).version = s.version + 1 ∧
    (timerPending s.updateTimer = false →
      (updateStreamSettings settings s).updateTimer = some (s.nextTimer + 1)) := by
  unfold updateStreamSettings
  have hne : strictEq
      (getAttr ({ s with nextId := s.nextId + 1 } : LoaderState).state "streamSettings")
      (JSVal.obj s.nextId
        (mergeFields (fieldsOf (getAttr s.state "streamSettings")) (fieldsOf settings)))
      = false := strictEq_stored_merged_false s _ hfresh
  unfold set
  simp only [hne, Bool.false_eq_true, if_false]
  constructor
  · by_cases hp : timerPending s.updateTimer = true <;> simp [hp]
  · intro hp
    simp [hp]

/-- Witness for C9: a `settings` object restating exactly the stored value
`a = 1`, and then an empty `settings` object, each still increment the
generation by 1; the first of them arms a tick on a no-pending state. -/
theorem updateStreamSettings_always_bumps_generation_witness :
    (updateStreamSettings (JSVal.obj 50 [("a", JSVal.num 1)])
      { state := [("streamSettings", JSVal.obj 0 [("a", JSVal.num 1)])], version := 4,
        updateTimer := none, listeners := [], nextId := 1, nextTimer := 0 }).version = 5 ∧
    (updateStreamSettings (JSVal.obj 50 [("a", JSVal.num 1)])
      { state := [("streamSettings", JSVal.obj 0 [("a", JSVal.num 1)])], version := 4,
        updateTimer := none, listeners := [], nextId := 1, nextTimer := 0 }).updateTimer
      = some 1 ∧
    (updateStreamSettings (JSVal.obj 51 [])
      { state := [("streamSettings", JSVal.obj 0 [("a", JSVal.num 1)])], version := 4,
        updateTimer := none, listeners := [], nextId := 1, nextTimer := 0 }).version = 5 := by
  have h1 := updateStreamSettings_always_bumps_generation (JSVal.obj 50 [("a", JSVal.num 1)])
    { state := [("streamSettings", JSVal.obj 0 [("a", JSVal.num 1)])], version := 4,
      updateTimer := none, listeners := [], nextId := 1, nextTimer := 0 } (by decide)
  have h2 := updateStreamSettings_always_bumps_generation (JSVal.obj 51 [])
    { state := [("streamSettings", JSVal.obj 0 [("a", JSVal.num 1)])], version := 4,
      updateTimer := none, listeners := [], nextId := 1, nextTimer := 0 } (by decide)
  exact ⟨h1.1, h1.2 (by decide), h2.1⟩

/-- C10: when both `streamSettings` and `streams` are truthy objects,
`getStreams` builds a fresh object keeping exactly those entries of
`streams` whose setting under the same name is truthy — an entry whose
setting is falsy or absent is excluded, and every retained entry keeps the
identical value from `streams` (the `streams` value itself being left
untouched, the result is a new object). When either attribute is absent
(reads as `undefined`, which is falsy), `streams` is returned unfiltered. -/
theorem getStreams_filters_by_truthy_setting (freshOid : Nat) (ss st : JSVal) :
    ((ss = JSVal.undefined ∨ st = JSVal.undefined) → getStreamsCompute freshOid ss st = st) ∧
    (∀ o1 fs1 o2 fs2, ss = JSVal.obj o1 fs1 → st = JSVal.obj o2 fs2 →
      getStreamsCompute freshOid ss st
        = JSVal.obj freshOid (fs2.filter (fun p => truthy (getAttr fs1 p.1))) ∧
      (∀ k, lookupField (fs2.filter (fun p => truthy (getAttr fs1 p.1))) k
        = if truthy (getAttr fs1 k) = true then lookupField fs2 k else none)) := by
  constructor
  · rintro (h | h) <;> subst h <;> simp [getStreamsCompute, truthy]
  · intro o1 fs1 o2 fs2 h1 h2
    subst h1; subst h2
    refine ⟨by simp [getStreamsCompute, truthy, fieldsOf], ?_⟩
    intro k
    exact lookupField_filter_keydep fs2 (fun key => truthy (getAttr fs1 key)) k

/-- Witness for C10: with settings x truthy and y falsy, only stream x is
kept (with its identical value); looking up the absent-from-settings key z
gives nothing; with settings absent, the streams object passes through. -/
theorem getStreams_filters_by_truthy_setting_witness :
    getStreamsCompute 9 (JSVal.obj 1 [("x", JSVal.bool true), ("y", JSVal.num 0)])
        (JSVal.obj 2 [("x", JSVal.str "X"), ("y", JSVal.str "Y"), ("z", JSVal.str "Z")])
      = JSVal.obj 9 [("x", JSVal.str "X")] ∧
    lookupField [("x", JSVal.str "X")] "z" = none ∧
    getStreamsCompute 9 JSVal.undefined (JSVal.obj 2 [("x", JSVal.str "X")])
      = JSVal.obj 2 [("x", JSVal.str "X")] := by
  have h := getStreams_filters_by_truthy_setting 9
    (JSVal.obj 1 [("x", JSVal.bool true), ("y", JSVal.num 0)])
    (JSVal.obj 2 [("x", JSVal.str "X"), ("y", JSVal.str "Y"), ("z", JSVal.str "Z")])
  have h2 := getStreams_filters_by_truthy_setting 9 JSVal.undefined
    (JSVal.obj 2 [("x", JSVal.str "X")])
  refine ⟨((h.2 _ _ _ _ rfl rfl).1).trans (by decide), by decide, h2.1 (Or.inl rfl)⟩

/-- C2: `seek(t)` for finite `t`. When the `metadata` attribute is truthy
and the two log-bound selectors evaluate to finite numbers `lo` and `hi`
(a well-formed bound interval, `lo ≤ hi`), the stored `timestamp`
attribute afterwards equals `lo` when `t < lo`, `hi` when `t > hi`, and
`t` when `lo ≤ t ≤ hi`. When the `metadata` attribute is absent (reads as
`undefined`), no clamping occurs and the stored `timestamp` equals `t`.
In every case the (possibly clamped) value ends up stored under
`timestamp`. -/
theorem seek_clamps_timestamp (w t : ℚ) (s : LoaderState) :
    (∀ lo hi : ℚ, truthy (getAttr s.state "metadata") = true →
      getLogStartTimeOf w (getAttr s.state "metadata") = JSVal.num lo →
      getLogEndTimeOf (getAttr s.state "metadata") = JSVal.num hi →
      lo ≤ hi →
      ((t < lo → get (seek w (JSVal.num t) s) "timestamp" = JSVal.num lo) ∧
       (t > hi → get (seek w (JSVal.num t) s) "timestamp" = JSVal.num hi) ∧
       (lo ≤ t → t ≤ hi → get (seek w (JSVal.num t) s) "timestamp" = JSVal.num t))) ∧
    (getAttr s.state "metadata" = JSVal.undefined →
      get (seek w (JSVal.num t) s) "timestamp" = JSVal.num t) := by
  constructor
  · intro lo hi hmd hlo hhi hle
    have hseek : seek w (JSVal.num t) s = set "timestamp" (clampJS (JSVal.num t) lo hi) s := by
      unfold seek
      simp only [hmd, hlo, hhi, if_true]
    refine ⟨fun hlt => ?_, fun hgt => ?_, fun hge hle2 => ?_⟩
    · rw [hseek]
      have hc : clampJS (JSVal.num t) lo hi = JSVal.num lo := by simp [clampJS, hlt]
      rw [hc]
      exact get_set_num _ _ _
    · rw [hseek]
      have hnlt : ¬ t < lo := by linarith
      have hc : clampJS (JSVal.num t) lo hi = JSVal.num hi := by simp [clampJS, hnlt, hgt]
      rw [hc]
      exact get_set_num _ _ _
    · rw [hseek]
      have hnlt : ¬ t < lo := not_lt.mpr hge
      have hngt : ¬ t > hi := not_lt.mpr hle2
      have hc : clampJS (JSVal.num t) lo hi = JSVal.num t := by simp [clampJS, hnlt, hngt]
      rw [hc]
      exact get_set_num _ _ _
  · intro hmd
    unfold seek
    simp only [hmd, truthy, Bool.false_eq_true, if_false]
    exact get_set_num _ _ _

/-- Witness for C2: with metadata start 100 and end 200 stored and
`TIME_WINDOW` 5, the bounds are 105 and 200: seeking 50 stores 105,
seeking 250 stores 200, seeking 150 stores 150; with no metadata, seeking
50 stores 50. -/
theorem seek_clamps_timestamp_witness :
    get (seek 5 (JSVal.num 50)
      { state := [("metadata", JSVal.obj 0 [("start_time", JSVal.num 100), ("end_time", JSVal.num 200)])],
        version := 0, updateTimer := none, listeners := [], nextId := 1, nextTimer := 0 })
      "timestamp" = JSVal.num 105 ∧
    get (seek 5 (JSVal.num 250)
      { state := [("metadata", JSVal.obj 0 [("start_time", JSVal.num 100), ("end_time", JSVal.num 200)])],
        version := 0, updateTimer := none, listeners := [], nextId := 1, nextTimer := 0 })
      "timestamp" = JSVal.num 200 ∧
    get (seek 5 (JSVal.num 150)
      { state := [("metadata", JSVal.obj 0 [("start_time", JSVal.num 100), ("end_time", JSVal.num 200)])],
        version := 0, updateTimer := none, listeners := [], nextId := 1, nextTimer := 0 })
      "timestamp" = JSVal.num 150 ∧
    get (seek 5 (JSVal.num 50)
      { state := [], version := 0, updateTimer := none, listeners := [], nextId := 0, nextTimer := 0 })
      "timestamp" = JSVal.num 50 := by
  have hlo : getLogStartTimeOf 5
      (getAttr [("metadata", JSVal.obj 0 [("start_time", JSVal.num 100), ("end_time", JSVal.num 200)])] "metadata")
      = JSVal.num 105 := by
    norm_num [getLogStartTimeOf, jsAnd, jsField, getAttr, lookupField, truthy, jsAdd]
  have h50 := seek_clamps_timestamp 5 50
    { state := [("metadata", JSVal.obj 0 [("start_time", JSVal.num 100), ("end_time", JSVal.num 200)])],
      version := 0, updateTimer := none, listeners := [], nextId := 1, nextTimer := 0 }
  have h250 := seek_clamps_timestamp 5 250
    { state := [("metadata", JSVal.obj 0 [("start_time", JSVal.num 100), ("end_time", JSVal.num 200)])],
      version := 0, updateTimer := none, listeners := [], nextId := 1, nextTimer := 0 }
  have h150 := seek_clamps_timestamp 5 150
    { state := [("metadata", JSVal.obj 0 [("start_time", JSVal.num 100), ("end_time", JSVal.num 200)])],
      version := 0, updateTimer := none, listeners := [], nextId := 1, nextTimer := 0 }
  have habs := seek_clamps_timestamp 5 50
    { state := [], version := 0, updateTimer := none, listeners := [], nextId := 0, nextTimer := 0 }
  exact ⟨(h50.1 105 200 (by decide) hlo (by decide) (by norm_num)).1 (by norm_num),
    (h250.1 105 200 (by decide) hlo (by decide) (by norm_num)).2.1 (by norm_num),
    (h150.1 105 200 (by decide) hlo (by decide) (by norm_num)).2.2 (by norm_num) (by norm_num),
    habs.2 (by decide)⟩

/-- C4 counterexample: for the stored metadata object with the finite
numbers start 0 and end 200 and configured `TIME_WINDOW` 5, the claim says
`getLogStartTime()` returns 0 + 5 = 5, but the `&&` chain short-circuits
on the falsy `start_time` 0 and the selector returns 0 instead. -/
theorem getLogStartTime_zero_start_counterexample :
    getLogStartTimeOf 5 (JSVal.obj 0 [("start_time", JSVal.num 0), ("end_time", JSVal.num 200)])
      = JSVal.num 0 ∧
    JSVal.num 0 ≠ JSVal.num ((0 : ℚ) + 5) := by
  constructor
  · rfl
  · intro h
    simp only [JSVal.num.injEq] at h
    norm_num at h

/-- C4 amended: for every stored metadata object whose `start_time` and
`end_time` are finite numbers with `start_time` nonzero (truthy), and
configured `TIME_WINDOW` `w`, `getLogStartTime()` returns
`start_time + w` and `getLogEndTime()` returns `end_time` unshifted. -/
theorem log_bounds_start_shifted_end_unshifted (w a b : ℚ) (oid : Nat)
    (fields : List (String × JSVal))
    (hs : getAttr fields "start_time" = JSVal.num a)
    (he : getAttr fields "end_time" = JSVal.num b)
    (ha : a ≠ 0) :
    getLogStartTimeOf w (JSVal.obj oid fields) = JSVal.num (a + w) ∧
    getLogEndTimeOf (JSVal.obj oid fields) = JSVal.num b := by
  constructor
  · simp [getLogStartTimeOf, jsAnd, jsField, hs, truthy, jsAdd, ha]
  · simp [getLogEndTimeOf, jsAnd, jsField, he, truthy]

/-- Witness for C4's amended theorem: the spec's example — metadata start
100 and end 200 with `TIME_WINDOW` 5 yields log start 100 + 5 = 105 and
log end 200. -/
theorem log_bounds_start_shifted_end_unshifted_witness :
    getLogStartTimeOf 5 (JSVal.obj 0 [("start_time", JSVal.num 100), ("end_time", JSVal.num 200)])
      = JSVal.num ((100 : ℚ) + 5) ∧
    (100 : ℚ) + 5 = 105 ∧
    getLogEndTimeOf (JSVal.obj 0 [("start_time", JSVal.num 100), ("end_time", JSVal.num 200)])
      = JSVal.num 200 := by
  have h := log_bounds_start_shifted_end_unshifted 5 100 200 0
    [("start_time", JSVal.num 100), ("end_time", JSVal.num 200)]
    (by decide) (by decide) (by norm_num)
  exact ⟨h.1, by norm_num, h.2⟩

/-- C5: whenever the `getCurrentFrame` derivation computes, it returns
`null` touching nothing when the synchronizer is absent or the timestamp
is not a finite number; otherwise it pushes the timestamp via `setTime`,
then the look-ahead via `setLookAheadTimeOffset` — in that order, as the
recorded call trace shows — and only then reads the frame for the current
stream settings: whatever synchronizer state `st0` held before, the frame
returned is the synchronizer's response to the freshly pushed time and
look-ahead. -/
theorem getCurrentFrame_pushes_then_reads
    (resp : JSVal → JSVal → JSVal → JSVal) (st0 : SyncState)
    (ss t la : JSVal) :
    (∀ present : Bool, present = false ∨ isFiniteNum t = false →
      getCurrentFrameCompute resp present st0 ss t la = (JSVal.null, st0, [])) ∧
    (isFiniteNum t = true →
      getCurrentFrameCompute resp true st0 ss t la
        = (resp t la ss, ⟨t, la⟩,
            [SyncCall.setTime t, SyncCall.setLookAheadTimeOffset la,
             SyncCall.getCurrentFrame ss])) := by
  constructor
  · rintro present (h | h) <;> simp [getCurrentFrameCompute, h]
  · intro h
    simp [getCurrentFrameCompute, h, syncSetTime, syncSetLookAhead, syncGetCurrentFrame]

/-- Witness for C5: a synchronizer that echoes its retained time,
look-ahead and the settings argument into the frame shows both pushes land
before the frame read; with a non-finite timestamp the result is `null`
and no synchronizer call occurs. -/
theorem getCurrentFrame_pushes_then_reads_witness :
    getCurrentFrameCompute (fun a b c => JSVal.obj 5 [("t", a), ("l", b), ("s", c)]) true
        ⟨JSVal.num 0, JSVal.num 0⟩ (JSVal.obj 3 []) (JSVal.num 7) (JSVal.num 1)
      = (JSVal.obj 5 [("t", JSVal.num 7), ("l", JSVal.num 1), ("s", JSVal.obj 3 [])],
          ⟨JSVal.num 7, JSVal.num 1⟩,
          [SyncCall.setTime (JSVal.num 7), SyncCall.setLookAheadTimeOffset (JSVal.num 1),
            SyncCall.getCurrentFrame (JSVal.obj 3 [])]) ∧
    getCurrentFrameCompute (fun a b c => JSVal.obj 5 [("t", a), ("l", b), ("s", c)]) true
        ⟨JSVal.num 0, JSVal.num 0⟩ (JSVal.obj 3 []) JSVal.nan (JSVal.num 1)
      = (JSVal.null, ⟨JSVal.num 0, JSVal.num 0⟩, []) := by
  have h := getCurrentFrame_pushes_then_reads
    (fun a b c => JSVal.obj 5 [("t", a), ("l", b), ("s", c)])
    ⟨JSVal.num 0, JSVal.num 0⟩ (JSVal.obj 3 []) (JSVal.num 7) (JSVal.num 1)
  have h2 := getCurrentFrame_pushes_then_reads
    (fun a b c => JSVal.obj 5 [("t", a), ("l", b), ("s", c)])
    ⟨JSVal.num 0, JSVal.num 0⟩ (JSVal.obj 3 []) JSVal.nan (JSVal.num 1)
  exact ⟨h.2 rfl, h2.1 true (Or.inr rfl)⟩

end XVIZ
